import Mathlib

/-!
Verification development for the LiteSurveyInterceptor survey-automation bot
(`src/LiteSurveyInterceptor.py`).  The Python bot logic is shallowly embedded:
pure string computations become Lean functions over `String`/`List Char`,
randomness becomes explicit sample parameters, browser queries become explicit
input data (with `Option`/`Except` encoding absence and raised exceptions), and
exceptions raised by Python library calls become `Except PyError` results.
All character-level operations model Python's behaviour on the ASCII range,
which covers every constant appearing in the source.
-/

set_option autoImplicit false

namespace LiteSurvey

/-! ## Definitions (shallow embedding of the bot logic) -/

/-- Python exceptions that can be raised by the library calls the bot uses:
`IndexError` (from `random.choice` on an empty sequence), `ValueError`
(from `random.randint(a, b)` with `b < a` and `random.sample` with an
oversized count), and a catch-all for driver/DOM exceptions. -/
inductive PyError where
  | indexError
  | valueError
  | domError
  deriving DecidableEq, Repr

/-- `lowerChar c` models Python `str.lower` on one ASCII character:
an upper-case letter moves down by 32 code points, all else is unchanged. -/
def lowerChar (c : Char) : Char :=
  if 'A' ≤ c ∧ c ≤ 'Z' then Char.ofNat (c.toNat + 32) else c

/-- `pyLower s` models Python `s.lower()` (ASCII range). -/
def pyLower (s : String) : String :=
  ⟨s.data.map lowerChar⟩

/-- Characters stripped by Python `str.strip()` (ASCII whitespace). -/
def isPySpace (c : Char) : Bool :=
  c = ' ' || c = '\t' || c = '\n' || c = '\r' || c = '\x0b' || c = '\x0c'

/-- `pyStrip s` models Python `s.strip()`: drop leading and trailing
whitespace. -/
def pyStrip (s : String) : String :=
  ⟨((s.data.dropWhile isPySpace).reverse.dropWhile isPySpace).reverse⟩

/-- Prefix test on character lists (used to build the substring test). -/
def listPre : List Char → List Char → Bool
  | [], _ => true
  | _ :: _, [] => false
  | a :: as, b :: bs => a = b && listPre as bs

/-- Substring test on character lists: does `hay` contain `needle`
as a contiguous run? -/
def listSub (needle : List Char) : List Char → Bool
  | [] => needle.isEmpty
  | b :: bs => listPre needle (b :: bs) || listSub needle bs

/-- `strIn k q` models Python `k in q` for strings (substring containment). -/
def strIn (k q : String) : Bool :=
  listSub k.data q.data

/-- Python `a or b` for an optional string `a` (as returned by
`get_attribute`) against a string default: `None` and `""` are falsy. -/
def pyOrStr (a : Option String) (b : String) : String :=
  match a with
  | none => b
  | some s => if s = "" then b else s

/-- `random.choice(l)` with the random draw made explicit as an index seed:
raises `IndexError` on an empty sequence, otherwise picks an element. -/
def pyChoice (l : List String) (r : ℕ) : Except PyError String :=
  match l with
  | [] => .error .indexError
  | a :: as => .ok ((a :: as).get ⟨r % (a :: as).length, Nat.mod_lt _ (Nat.succ_pos _)⟩)

/-- `random.randint(a, b)` with the draw made explicit: raises `ValueError`
when `b < a`, otherwise returns a value in `[a, b]`. -/
def pyRandint (a b r : ℕ) : Except PyError ℕ :=
  if b < a then .error .valueError else .ok (a + r % (b - a + 1))

/-- `random.sample(l, k)` with the draws made explicit: `k` distinct
positions are removed one at a time.  (The caller in the source always
supplies `k ≤ l.length`; beyond that this model returns a truncated
sample where Python would raise.) -/
def pySample : ℕ → List ℕ → ℕ → List ℕ
  | 0, _, _ => []
  | _ + 1, [], _ => []
  | k + 1, a :: as, r =>
    let l := a :: as
    let i := r % l.length
    l.getD i 0 :: pySample k (l.eraseIdx i) (r / l.length)

def PRESET_WORDS : List String := ["Yes", "No", "Maybe", "Sure", "I agree"]

def TEXTAREA_SENTENCES : List String :=
  ["I think that's reasonable and I'd consider it.",
   "No additional comments.",
   "I don't have a strong preference.",
   "This seems okay to me."]

def kwYesno : List String :=
  ["support", "agree", "do you", "should", "is it", "yes/no", "would you"]

def kwNumbers : List String :=
  ["age", "years", "how many", "number of", "how old"]

def kwFavorite : List String :=
  ["favorite", "prefer", "which do you prefer"]

def kwOpinion : List String :=
  ["thoughts", "comments", "suggestions", "opinion", "ideas", "why", "explain"]

def kwLocation : List String :=
  ["city", "state", "country", "where do you live", "residence"]

/-- `HUMAN_WEIGHTS["radio"]`, the yes-bias used for yes/no questions. -/
def radioYesWeight : ℚ := 7 / 10

/-- A response profile (`self.profile`): the `"text"` and `"textarea"`
candidate-answer pools, plus name and description.  The source stores this
as a dict whose keys are always populated; present-but-empty pools are the
configurations the error-handling claims are about. -/
structure Profile where
  name : String
  text : List String
  textarea : List String
  description : String
  deriving DecidableEq, Repr

/-- The default profile built in `SurveyBot.__init__`. -/
def defaultProfile : Profile :=
  { name := "Default", text := PRESET_WORDS, textarea := TEXTAREA_SENTENCES,
    description := "Balanced responses. Risk: Low." }

/-- The five answer strategies distinguished by `intelligent_answer`'s
keyword branches. -/
inductive Strategy where
  | yesno
  | numeric
  | favorite
  | opinion
  | freeform
  deriving DecidableEq, Repr

/-- `kwAny q ks`: does the (already lower-cased) text `q` contain some
keyword of `ks`?  Models `any(k in q for k in ks)`. -/
def kwAny (q : String) (ks : List String) : Bool :=
  ks.any (fun k => strIn k q)

/-- The branch structure of `intelligent_answer` (lines 267-287), extracted
as a classifier: lower-case the text, then test the keyword sets in source
order.  `hasOptions` is the truthiness of the `options` argument, gating the
favorite branch and separating the two fallback branches. -/
def classify (qtext : Option String) (hasOptions : Bool) : Strategy :=
  let q := pyLower (qtext.getD "")
  if kwAny q kwYesno then .yesno
  else if kwAny q kwNumbers then .numeric
  else if hasOptions && kwAny q kwFavorite then .favorite
  else if kwAny q kwOpinion then .opinion
  else .freeform

/-- The random draws consumed by one call to `intelligent_answer`:
the yes/no weighted coin, the `randint(18, 65)` seed, the
`random.random() < 0.5` coin of the opinion branch, and the index seed
for the `random.choice` calls. -/
structure Rand where
  yesCoin : Bool
  ageSeed : ℕ
  opCoin : Bool
  choiceSeed : ℕ

/-- `SurveyBot.intelligent_answer(qtext, options, qtype)` (lines 267-287).
`options = none`/`[]` both behave as falsy, matching the Python default
`options=None` and empty-list truthiness; we take the list directly. -/
def intelligent_answer (qtext : Option String) (options : List String)
    (profile : Profile) (r : Rand) : Except PyError String :=
  let q := pyLower (qtext.getD "")
  if kwAny q kwYesno then
    .ok (if r.yesCoin then "Yes" else "No")
  else if kwAny q kwNumbers then
    .ok (toString (18 + r.ageSeed % 48))
  else if (!options.isEmpty) && kwAny q kwFavorite then
    pyChoice options r.choiceSeed
  else if kwAny q kwOpinion then
    if r.opCoin then pyChoice profile.textarea r.choiceSeed
    else pyChoice profile.text r.choiceSeed
  else if !options.isEmpty then
    pyChoice options r.choiceSeed
  else
    pyChoice profile.text r.choiceSeed

/-- The answer produced for each strategy, written against the classifier:
used to relate `intelligent_answer` to `classify`. -/
def answerByStrategy (s : Strategy) (options : List String)
    (profile : Profile) (r : Rand) : Except PyError String :=
  match s with
  | .yesno => .ok (if r.yesCoin then "Yes" else "No")
  | .numeric => .ok (toString (18 + r.ageSeed % 48))
  | .favorite => pyChoice options r.choiceSeed
  | .opinion =>
    if r.opCoin then pyChoice profile.textarea r.choiceSeed
    else pyChoice profile.text r.choiceSeed
  | .freeform =>
    if !options.isEmpty then pyChoice options r.choiceSeed
    else pyChoice profile.text r.choiceSeed

/-- `hitsKw q ks`: the lower-cased question text contains some keyword of
`ks` (the propositional form of `kwAny`). -/
def hitsKw (q : Option String) (ks : List String) : Prop :=
  ∃ k ∈ ks, strIn k (pyLower (q.getD "")) = true

instance (q : Option String) (ks : List String) : Decidable (hitsKw q ks) := by
  unfold hitsKw; infer_instance

/-- The exact condition under which `intelligent_answer` raises: the pool
sampled by the branch actually taken is empty. -/
def emptyPoolAt (q : Option String) (options : List String)
    (p : Profile) (r : Rand) : Bool :=
  match classify q (!options.isEmpty) with
  | .opinion => (if r.opCoin then p.textarea else p.text).isEmpty
  | .freeform => options.isEmpty && p.text.isEmpty
  | _ => false

/-- Profile and random draws used in the C2 counterexample: a non-empty
`text` pool but an empty `textarea` pool, with the opinion coin choosing
the long-answer pool. -/
def cexProfile : Profile :=
  { name := "P", text := ["ok"], textarea := [], description := "" }

def cexRand : Rand :=
  { yesCoin := false, ageSeed := 0, opCoin := true, choiceSeed := 0 }

def emptyProfile : Profile :=
  { name := "E", text := [], textarea := [], description := "" }

/-- A checkbox element as seen by `_answer_checkboxes`: only its
selection state matters for the group-selection logic. -/
structure CheckboxEl where
  selected : Bool
  deriving DecidableEq, Repr

/-- Indices (into the group) of the unselected checkboxes: the
`candidates` list of line 350. -/
def unselIdx (group : List CheckboxEl) : List ℕ :=
  (List.range group.length).filter (fun i => !(group.getD i ⟨true⟩).selected)

/-- The per-group body of `SurveyBot._answer_checkboxes` (lines 350-362):
filter to unselected candidates, skip when none, draw
`randint(2, min(5, len(candidates)))`, then `random.sample` that many
candidates.  Returns the indices that get clicked. -/
def answerCheckboxGroup (group : List CheckboxEl) (rCount rSample : ℕ) :
    Except PyError (List ℕ) :=
  let candidates := unselIdx group
  if candidates.isEmpty then .ok []
  else
    match pyRandint 2 (min 5 candidates.length) rCount with
    | .error e => .error e
    | .ok count => .ok (pySample count candidates rSample)

/-- The page data inspected by `_detect_captcha` (lines 253-264): the iframe
query (which can itself raise), each iframe's `src` attribute read (which
can raise, or return `None`), and the captcha-text-node query. -/
structure CaptchaPage where
  iframesQ : Except PyError (List (Except PyError (Option String)))
  textNodesQ : Except PyError (List String)

/-- `"recaptcha" in src or "hcaptcha" in src or "geetest" in src`. -/
def hasChallengeMarker (src : String) : Bool :=
  strIn "recaptcha" src || strIn "hcaptcha" src || strIn "geetest" src

/-- One iframe's contribution: its source URL (lower-cased, with `None`
treated as `""`) contains a challenge-provider marker. -/
def frameOkMarker : Except PyError (Option String) → Bool
  | .ok s => hasChallengeMarker (pyLower (s.getD ""))
  | .error _ => false

/-- The iframe scan of lines 255-259: read each `src` in order, returning
`true` at the first marker; a raising read propagates to the outer handler. -/
def scanFrames : List (Except PyError (Option String)) → Except PyError Bool
  | [] => .ok false
  | f :: rest =>
    match f with
    | .error e => .error e
    | .ok src =>
      if hasChallengeMarker (pyLower (src.getD "")) then .ok true
      else scanFrames rest

/-- The XPath of line 260 finds a node whose text contains "captcha"
case-insensitively; the code only tests whether the result list is
non-empty. -/
def textHasCaptcha (nodes : List String) : Bool :=
  nodes.any (fun t => strIn "captcha" (pyLower t))

/-- The body of the `try` block of `_detect_captcha`. -/
def detectCaptchaE (p : CaptchaPage) : Except PyError Bool :=
  match p.iframesQ with
  | .error e => .error e
  | .ok fs =>
    match scanFrames fs with
    | .error e => .error e
    | .ok true => .ok true
    | .ok false =>
      match p.textNodesQ with
      | .error e => .error e
      | .ok nodes => .ok (textHasCaptcha nodes)

/-- `SurveyBot._detect_captcha`: the `except` clause turns any raised
inspection error into `False` (fail-open). -/
def detectCaptcha (p : CaptchaPage) : Bool :=
  match detectCaptchaE p with
  | .ok b => b
  | .error _ => false

/-- The loop's shared flags (`self.alive`, `self.running`). -/
structure RunState where
  alive : Bool
  running : Bool
  deriving DecidableEq, Repr

/-- What one pass body observes before the loop reacts: the challenge
detector fired, or the pass completed and `_click_next_if_any` returned
`b`.  A raised exception is the `Except.error` case consumed by the
`except` clause of `_thread_main`. -/
inductive PassResult where
  | captcha
  | clicked (b : Bool)
  deriving DecidableEq, Repr

/-- One iteration of the `while self.alive` loop of `_thread_main`
(lines 480-506), at fixed flag values: if not running, idle (state
unchanged); on a detected challenge, a failed advance, or any raised
exception, clear `running` only; on a successful advance, leave the state
unchanged.  The function is total in the body outcome: the caught
exception never escapes. -/
def threadIter (s : RunState) (body : Except PyError PassResult) : RunState :=
  if s.running then
    match body with
    | .error _ => { alive := s.alive, running := false }
    | .ok .captcha => { alive := s.alive, running := false }
    | .ok (.clicked true) => s
    | .ok (.clicked false) => { alive := s.alive, running := false }
  else s

/-- Repeated loop iterations over a stream of pass outcomes. -/
def runWorker (s : RunState) (bodies : List (Except PyError PassResult)) : RunState :=
  bodies.foldl threadIter s

/-- The three escalation stages of `_safe_click` (lines 189-219). -/
inductive ClickStage where
  | direct
  | chain
  | dispatch
  deriving DecidableEq, Repr

/-- Outcomes of the individual operations `_safe_click` attempts.
`elPresent` is the `el is None` guard; `chainsAvail`/`driverAvail` gate the
ActionChains stage; `scrollRes` is the scroll-into-view attempt of
lines 204-208, whose failure is suppressed on both paths (the definition
accordingly ignores it). -/
structure ClickEnv where
  elPresent : Bool
  directRes : Except PyError Unit
  chainsAvail : Bool
  driverAvail : Bool
  chainRes : Except PyError Unit
  scrollRes : Except PyError Unit
  dispatchRes : Except PyError Unit

/-- Boolean success test for a stage outcome. -/
def stageOk : Except PyError Unit → Bool
  | .ok _ => true
  | .error _ => false

/-- `SurveyBot._safe_click`, returning its boolean result together with the
list of stages actually attempted.  Each stage's exception is caught
(`except: pass`) and control falls to the next stage; the final stage's
failure produces `false`.  The function is total: no input makes it
raise. -/
def safeClick (env : ClickEnv) : Bool × List ClickStage :=
  if !env.elPresent then (false, [])
  else
    match env.directRes with
    | .ok _ => (true, [ClickStage.direct])
    | .error _ =>
      if env.chainsAvail && env.driverAvail then
        match env.chainRes with
        | .ok _ => (true, [ClickStage.direct, ClickStage.chain])
        | .error _ =>
          match env.dispatchRes with
          | .ok _ =>
            (true, [ClickStage.direct, ClickStage.chain, ClickStage.dispatch])
          | .error _ =>
            (false, [ClickStage.direct, ClickStage.chain, ClickStage.dispatch])
      else
        match env.dispatchRes with
        | .ok _ => (true, [ClickStage.direct, ClickStage.dispatch])
        | .error _ => (false, [ClickStage.direct, ClickStage.dispatch])

/-- The sleep-slice width of `_interruptible_sleep` (0.1 seconds). -/
def sliceLen : ℚ := 1 / 10

/-- `_rand_delay` (line 176): `uniform(min, max) + uniform(0, 0.4)`, with
the two uniform samples made explicit. -/
def randDelay (u1 u2 : ℚ) : ℚ := u1 + u2

/-- The number of flag checks the `while slept < total` loop of
`_interruptible_sleep` performs when never interrupted: iterations run
while `slept = k * 0.1 < total`, i.e. for `k < ceil(10 * total)`
(see `lt_numSlices_iff`). -/
def numSlices (total : ℚ) : ℕ := (Int.ceil (total * 10)).toNat

/-- The loop body of `_interruptible_sleep` over slice indices: before every
slice the `running` flag (`flags i`) is re-checked; a cleared flag returns
`False` at once, otherwise one slice is slept and the loop continues.
The second component counts the slices actually slept. -/
def sleepLoopAux (flags : ℕ → Bool) : ℕ → ℕ → Bool × ℕ
  | 0, i => (true, i)
  | n + 1, i => if flags i then sleepLoopAux flags n (i + 1) else (false, i)

/-- `SurveyBot._interruptible_sleep` (lines 178-187): result flag plus the
number of slices slept before returning. -/
def interruptibleSleep (flags : ℕ → Bool) (u1 u2 : ℚ) : Bool × ℕ :=
  sleepLoopAux flags (numSlices (randDelay u1 u2)) 0

/-- A text control as seen by `_answer_texts` / `_answer_textareas`: only
its current `value` attribute matters for the skip decision. -/
structure TextField where
  value : Option String

/-- `SurveyBot._answer_texts` (lines 401-421): for each field, read
`cur = (value or "").strip()`; a truthy `cur` skips the field, otherwise the
field is cleared and the synthesized answer (`synthOf i`, whose failure is
caught per-field and logged) is typed in.  Returns the (index, written
text) pairs. -/
def answerTexts (fields : List TextField) (synthOf : ℕ → Except PyError String) :
    List (ℕ × String) :=
  fields.enum.filterMap (fun p =>
    if pyStrip (pyOrStr p.2.value "") = "" then
      match synthOf p.1 with
      | .ok a => some (p.1, a)
      | .error _ => none
    else none)

/-- `SurveyBot._answer_textareas` (lines 423-443): identical skip/clear/write
structure over the multi-line controls, with its own synthesis path. -/

def answerTextareas (areas : List TextField) (synthOf : ℕ → Except PyError String) :
    List (ℕ × String) :=
  areas.enum.filterMap (fun p =>
    if pyStrip (pyOrStr p.2.value "") = "" then
      match synthOf p.1 with
      | .ok a => some (p.1, a)
      | .error _ => none
    else none)

/-- An option element's label sources, as read by `_get_label_text`
(lines 221-251) and the radio handler (line 314).  `none` encodes an absent
attribute or a raising query (both are caught and fall through);
`labelledbyText` is the text of the first node matching the
`aria-labelledby` id, when one exists. -/
structure LElem where
  value : Option String
  ariaLabel : Option String
  ancLabelText : Option String
  precLabelText : Option String
  ariaLabelledby : Option String
  labelledbyText : Option String

/-- `SurveyBot._get_label_text`: ancestor label text, then preceding label
text, then `aria-label`, each stripped and returned when non-empty; then the
`aria-labelledby` reference, whose resolved node text is returned stripped
without a non-empty check; else `""`. -/
def getLabelText (e : LElem) : String :=
  let a := pyStrip (e.ancLabelText.getD "")
  if a ≠ "" then a
  else
    let p := pyStrip (e.precLabelText.getD "")
    if p ≠ "" then p
    else
      let ar := pyStrip (e.ariaLabel.getD "")
      if ar ≠ "" then ar
      else
        let lid := pyStrip (e.ariaLabelledby.getD "")
        if lid ≠ "" then
          match e.labelledbyText with
          | some t => pyStrip t
          | none => ""
        else ""

/-- Line 314 of `_answer_radios`:
`(value or aria-label or _get_label_text(o) or "").strip()`, then the
placeholder `"<opt>"` when the stripped result is empty. -/
def radioOptLabel (e : LElem) : String :=
  let raw := pyOrStr e.value (pyOrStr e.ariaLabel (getLabelText e))
  let t := pyStrip raw
  if t = "" then "<opt>" else t

/-- The label-derivation order claimed by the spec for radio options — a
refinement-comparison definition written from the claim's words, not from
the source: associated (ancestor) label, preceding label, aria-label,
aria-labelledby reference, first non-empty wins, else the placeholder. -/
def claimedOptLabel (e : LElem) : String :=
  let a := pyStrip (e.ancLabelText.getD "")
  if a ≠ "" then a
  else
    let p := pyStrip (e.precLabelText.getD "")
    if p ≠ "" then p
    else
      let ar := pyStrip (e.ariaLabel.getD "")
      if ar ≠ "" then ar
      else
        let lb := pyStrip (e.labelledbyText.getD "")
        if lb ≠ "" then lb else "<opt>"

/-- The C5 counterexample element: a `value` attribute and an associated
ancestor label are both present. -/
def cexElem : LElem :=
  { value := some "V", ariaLabel := none, ancLabelText := some "Associated label",
    precLabelText := none, ariaLabelledby := none, labelledbyText := none }

/-- Element used by the C5 witness: no `value`, an `aria-label`, and an
ancestor label that the code must NOT prefer. -/
def ariaElem : LElem :=
  { value := none, ariaLabel := some "Aria", ancLabelText := some "L",
    precLabelText := none, ariaLabelledby := none, labelledbyText := none }

/-- A radio input as seen by `_answer_radios`: its group identity (the
`cid` derived from the nearest ancestor container, line 300) and its
selection state. -/
structure RadioEl where
  gid : ℕ
  selected : Bool
  deriving DecidableEq, Repr

def rdefault : RadioEl := { gid := 0, selected := false }

/-- Group id of the radio at index `i`. -/
def gidAt (page : List RadioEl) (i : ℕ) : ℕ := (page.getD i rdefault).gid

/-- Selection state of the radio at index `i`. -/
def selAt (page : List RadioEl) (i : ℕ) : Bool := (page.getD i rdefault).selected

/-- The `opts` re-query of line 307: the radio inputs inside the group's
ancestor container, i.e. the page indices carrying group id `g`. -/
def groupMembers (page : List RadioEl) (g : ℕ) : List ℕ :=
  (List.range page.length).filter (fun j => gidAt page j == g)

/-- The `any(o.is_selected() for o in opts)` check of line 310. -/
def groupAnswered (page : List RadioEl) (g : ℕ) : Bool :=
  (groupMembers page g).any (fun j => selAt page j)

/-- The effect of a successful `_safe_click` on a radio: it becomes
selected. -/
def bumpSel (page : List RadioEl) (j : ℕ) : List RadioEl :=
  page.set j { gid := gidAt page j, selected := true }

/-- The iteration of `_answer_radios` (lines 290-328) over the snapshot of
radio indices.  `flags i` models the `running` re-check before element `i`
(line 296; the pacing interruption after a commit truncates before the next
element in the same way); `choose` abstracts the match-or-random choice of
a member of the group's `opts` (the skip/dedup properties do not depend on
which member is chosen); `clickOk` models `_safe_click`'s success, a
successful click selecting the clicked radio.  Returns the committed
(clicked) indices and the resulting page. -/
def radiosLoop (choose : ℕ → ℕ) (clickOk : ℕ → Bool) (flags : ℕ → Bool) :
    List ℕ → List ℕ → List RadioEl → List ℕ × List RadioEl
  | [], _, page => ([], page)
  | i :: rest, seen, page =>
    if flags i = false then ([], page)
    else
      let g := gidAt page i
      if g ∈ seen then radiosLoop choose clickOk flags rest seen page
      else
        if groupAnswered page g then
          radiosLoop choose clickOk flags rest (g :: seen) page
        else
          let opts := groupMembers page g
          let j := opts.getD (choose i % opts.length) 0
          let page2 := if clickOk i then bumpSel page j else page
          let res := radiosLoop choose clickOk flags rest (g :: seen) page2
          (j :: res.1, res.2)

/-- One full pass of `_answer_radios` over the page. -/
def answerRadios (choose : ℕ → ℕ) (clickOk : ℕ → Bool) (flags : ℕ → Bool)
    (page : List RadioEl) : List ℕ × List RadioEl :=
  radiosLoop choose clickOk flags (List.range page.length) [] page

/-! ## Theorems -/

theorem intelligent_answer_eq_byStrategy (qtext : Option String)
    (options : List String) (profile : Profile) (r : Rand) :
    intelligent_answer qtext options profile r =
      answerByStrategy (classify qtext (!options.isEmpty)) options profile r := by
  unfold intelligent_answer classify answerByStrategy
  by_cases h1 : kwAny (pyLower (qtext.getD "")) kwYesno <;>
    by_cases h2 : kwAny (pyLower (qtext.getD "")) kwNumbers <;>
    by_cases h3 : (!options.isEmpty) && kwAny (pyLower (qtext.getD "")) kwFavorite <;>
    by_cases h4 : kwAny (pyLower (qtext.getD "")) kwOpinion <;>
    simp [h1, h2, h3, h4]

theorem hitsKw_iff_kwAny (q : Option String) (ks : List String) :
    hitsKw q ks ↔ kwAny (pyLower (q.getD "")) ks = true := by
  simp [hitsKw, kwAny, List.any_eq_true]

/-- `classify` can return `favorite` only when options were supplied. -/
theorem classify_favorite_hasOptions (q : Option String) (b : Bool)
    (h : classify q b = .favorite) : b = true := by
  unfold classify at h
  by_cases h1 : kwAny (pyLower (q.getD "")) kwYesno <;>
    by_cases h2 : kwAny (pyLower (q.getD "")) kwNumbers <;>
    by_cases h3 : b && kwAny (pyLower (q.getD "")) kwFavorite <;>
    by_cases h4 : kwAny (pyLower (q.getD "")) kwOpinion <;>
    simp_all

theorem pyChoice_error_iff (l : List String) (r : ℕ) :
    pyChoice l r = .error .indexError ↔ l = [] := by
  cases l <;> simp [pyChoice]

theorem pyChoice_error_eq (l : List String) (r : ℕ) (e : PyError)
    (h : pyChoice l r = .error e) : e = .indexError := by
  cases l <;> simp [pyChoice] at h; exact h.symm

/-- C4: question classification is a total function of the lower-cased
question text with fixed precedence: a yes/no cue always wins (even over
numeric, favorite, or opinion cues), then a numeric cue, then a favorite
cue but only when candidate options were supplied, then an opinion cue;
a text hitting no keyword set classifies as `freeform` (never a failure). -/
theorem classify_precedence (q : Option String) (b : Bool) :
    (∀ q2 : Option String, pyLower (q.getD "") = pyLower (q2.getD "") →
        classify q b = classify q2 b)
  ∧ (hitsKw q kwYesno → classify q b = .yesno)
  ∧ (¬ hitsKw q kwYesno → hitsKw q kwNumbers → classify q b = .numeric)
  ∧ (¬ hitsKw q kwYesno → ¬ hitsKw q kwNumbers → b = true → hitsKw q kwFavorite →
        classify q b = .favorite)
  ∧ (¬ hitsKw q kwYesno → ¬ hitsKw q kwNumbers → (b = false ∨ ¬ hitsKw q kwFavorite) →
        hitsKw q kwOpinion → classify q b = .opinion)
  ∧ (¬ hitsKw q kwYesno → ¬ hitsKw q kwNumbers → ¬ hitsKw q kwFavorite →
        ¬ hitsKw q kwOpinion → classify q b = .freeform) := by
  refine ⟨?_, ?_, ?_, ?_, ?_, ?_⟩
  · intro q2 h
    unfold classify
    rw [h]
  · intro hy
    have hy' := (hitsKw_iff_kwAny q kwYesno).mp hy
    simp [classify, hy']
  · intro hy hn
    have hy' : kwAny (pyLower (q.getD "")) kwYesno = false :=
      Bool.eq_false_iff.mpr (fun hc => hy ((hitsKw_iff_kwAny q kwYesno).mpr hc))
    have hn' := (hitsKw_iff_kwAny q kwNumbers).mp hn
    simp [classify, hy', hn']
  · intro hy hn hb hf
    have hy' : kwAny (pyLower (q.getD "")) kwYesno = false :=
      Bool.eq_false_iff.mpr (fun hc => hy ((hitsKw_iff_kwAny q kwYesno).mpr hc))
    have hn' : kwAny (pyLower (q.getD "")) kwNumbers = false :=
      Bool.eq_false_iff.mpr (fun hc => hn ((hitsKw_iff_kwAny q kwNumbers).mpr hc))
    have hf' := (hitsKw_iff_kwAny q kwFavorite).mp hf
    simp [classify, hy', hn', hf', hb]
  · intro hy hn hbf ho
    have hy' : kwAny (pyLower (q.getD "")) kwYesno = false :=
      Bool.eq_false_iff.mpr (fun hc => hy ((hitsKw_iff_kwAny q kwYesno).mpr hc))
    have hn' : kwAny (pyLower (q.getD "")) kwNumbers = false :=
      Bool.eq_false_iff.mpr (fun hc => hn ((hitsKw_iff_kwAny q kwNumbers).mpr hc))
    have ho' := (hitsKw_iff_kwAny q kwOpinion).mp ho
    have hbf' : (b && kwAny (pyLower (q.getD "")) kwFavorite) = false := by
      rcases hbf with hb | hf
      · simp [hb]
      · have hf' : kwAny (pyLower (q.getD "")) kwFavorite = false :=
          Bool.eq_false_iff.mpr (fun hc => hf ((hitsKw_iff_kwAny q kwFavorite).mpr hc))
        simp [hf']
    simp [classify, hy', hn', hbf', ho']
  · intro hy hn hf ho
    have hy' : kwAny (pyLower (q.getD "")) kwYesno = false :=
      Bool.eq_false_iff.mpr (fun hc => hy ((hitsKw_iff_kwAny q kwYesno).mpr hc))
    have hn' : kwAny (pyLower (q.getD "")) kwNumbers = false :=
      Bool.eq_false_iff.mpr (fun hc => hn ((hitsKw_iff_kwAny q kwNumbers).mpr hc))
    have hf' : kwAny (pyLower (q.getD "")) kwFavorite = false :=
      Bool.eq_false_iff.mpr (fun hc => hf ((hitsKw_iff_kwAny q kwFavorite).mpr hc))
    have ho' : kwAny (pyLower (q.getD "")) kwOpinion = false :=
      Bool.eq_false_iff.mpr (fun hc => ho ((hitsKw_iff_kwAny q kwOpinion).mpr hc))
    simp [classify, hy', hn', hf', ho']

/-- Witness for C4: a text containing both a yes/no cue and opinion cues
classifies as `yesno`, by the precedence theorem at a concrete input. -/
theorem classify_precedence_witness :
    classify (some "Do you agree? Any thoughts why?") true = .yesno :=
  (classify_precedence (some "Do you agree? Any thoughts why?") true).2.1 (by decide)

/-- C2 (amended): the synthesizer raises a plain `IndexError` — no
distinguished `EmptyAnswerPool` condition exists — and it fails exactly when
the pool sampled by the branch actually taken is empty: never on the
yes/no, numeric, or favorite branches; on the opinion branch when the
coin-selected profile pool is empty (even if `options` is non-empty); on the
fallback when `options` and the `text` pool are both empty. -/
theorem intelligent_answer_error_iff (q : Option String) (opts : List String)
    (p : Profile) (r : Rand) :
    (intelligent_answer q opts p r = .error .indexError ↔
        emptyPoolAt q opts p r = true)
  ∧ (∀ e, intelligent_answer q opts p r = .error e → e = .indexError) := by
  have hb := intelligent_answer_eq_byStrategy q opts p r
  constructor
  · rw [hb]
    unfold emptyPoolAt
    cases hc : classify q (!opts.isEmpty) with
    | yesno => simp [answerByStrategy]
    | numeric => simp [answerByStrategy]
    | favorite =>
      have hopts := classify_favorite_hasOptions q (!opts.isEmpty) hc
      have : opts ≠ [] := by
        intro he
        rw [he] at hopts
        simp at hopts
      simp [answerByStrategy, pyChoice_error_iff, this]
    | opinion =>
      cases hcoin : r.opCoin <;>
        simp [answerByStrategy, hcoin, pyChoice_error_iff, List.isEmpty_iff]
    | freeform =>
      cases he : opts.isEmpty <;>
        simp_all [answerByStrategy, pyChoice_error_iff, List.isEmpty_iff]
  · intro e hce
    rw [hb] at hce
    cases hc : classify q (!opts.isEmpty) <;> simp only [hc, answerByStrategy] at hce
    · exact absurd hce (by simp)
    · exact absurd hce (by simp)
    · exact pyChoice_error_eq _ _ _ hce
    · split at hce <;> exact pyChoice_error_eq _ _ _ hce
    · split at hce <;> exact pyChoice_error_eq _ _ _ hce

/-- Counterexample for C2: with non-empty `options` and a non-empty `text`
pool, the synthesizer still fails (opinion branch, empty `textarea` pool),
and the error raised is the generic `IndexError`, not a distinguished
condition. -/
theorem intelligent_answer_fails_with_nonempty_options :
    (["A"] ≠ ([] : List String))
  ∧ cexProfile.text ≠ []
  ∧ intelligent_answer (some "your opinion") ["A"] cexProfile cexRand =
      .error .indexError := by
  refine ⟨by decide, by decide, rfl⟩

/-- Witness for the amended C2 theorem at a concrete input: an empty profile
with empty options makes the fallback branch raise `IndexError`. -/
theorem intelligent_answer_error_iff_witness :
    intelligent_answer (some "hello") [] emptyProfile cexRand = .error .indexError :=
  (intelligent_answer_error_iff (some "hello") [] emptyProfile cexRand).1.mpr (by decide)

theorem pySample_length (k : ℕ) :
    ∀ (l : List ℕ) (r : ℕ), k ≤ l.length → (pySample k l r).length = k := by
  induction k with
  | zero => intro l r _; simp [pySample]
  | succ n ih =>
    intro l r h
    cases l with
    | nil => simp at h
    | cons a as =>
      have hlt : r % (a :: as).length < (a :: as).length :=
        Nat.mod_lt _ (Nat.succ_pos _)
      have herase : ((a :: as).eraseIdx (r % (a :: as).length)).length =
          as.length := by
        rw [List.length_eraseIdx (a :: as), if_pos hlt]
        simp
      have hn : n ≤ ((a :: as).eraseIdx (r % (a :: as).length)).length := by
        rw [herase]
        simp only [List.length_cons] at h
        omega
      simp only [pySample]
      rw [List.length_cons, ih _ _ hn]

theorem pySample_subset (k : ℕ) :
    ∀ (l : List ℕ) (r : ℕ), ∀ x ∈ pySample k l r, x ∈ l := by
  induction k with
  | zero => intro l r x hx; simp [pySample] at hx
  | succ n ih =>
    intro l r x hx
    cases l with
    | nil => simp [pySample] at hx
    | cons a as =>
      simp only [pySample, List.mem_cons] at hx
      rcases hx with hx | hx
      · have hlt : r % (a :: as).length < (a :: as).length :=
          Nat.mod_lt _ (by simp)
        rw [hx, List.getD_eq_getElem (a :: as) 0 hlt]
        exact List.getElem_mem hlt
      · exact (List.eraseIdx_sublist (a :: as) (r % (a :: as).length)).subset
          (ih _ _ x hx)

theorem mem_unselIdx (group : List CheckboxEl) (i : ℕ) :
    i ∈ unselIdx group ↔
      i < group.length ∧ (group.getD i ⟨true⟩).selected = false := by
  simp [unselIdx, List.mem_filter]

/-- C1 (amended): for a group with no unselected candidate the handler
selects nothing; for a group with at least two unselected candidates it
selects a count `k` with `2 ≤ k ≤ min 5 (number of unselected candidates)`,
drawn only from previously-unselected candidates; but for a group with
exactly one unselected candidate, `randint(2, 1)` raises `ValueError`
instead of completing normally. -/
theorem answerCheckboxGroup_spec (group : List CheckboxEl) (rCount rSample : ℕ) :
    ((unselIdx group).length = 0 →
        answerCheckboxGroup group rCount rSample = .ok [])
  ∧ (2 ≤ (unselIdx group).length →
      ∃ picks, answerCheckboxGroup group rCount rSample = .ok picks
        ∧ 2 ≤ picks.length
        ∧ picks.length ≤ min 5 (unselIdx group).length
        ∧ ∀ i ∈ picks, i < group.length ∧ (group.getD i ⟨true⟩).selected = false)
  ∧ ((unselIdx group).length = 1 →
      answerCheckboxGroup group rCount rSample = .error .valueError) := by
  refine ⟨?_, ?_, ?_⟩
  · intro h0
    have : (unselIdx group).isEmpty = true := by
      rw [List.isEmpty_iff, ← List.length_eq_zero]; exact h0
    simp [answerCheckboxGroup, this]
  · intro h2
    have hpos : 0 < (unselIdx group).length := by omega
    have hne : (unselIdx group).isEmpty = false := by
      rw [List.isEmpty_eq_false_iff_exists_mem]
      exact List.exists_mem_of_length_pos hpos
    have hmin : 2 ≤ min 5 (unselIdx group).length := le_min (by omega) h2
    have hcount : pyRandint 2 (min 5 (unselIdx group).length) rCount =
        .ok (2 + rCount % (min 5 (unselIdx group).length - 2 + 1)) := by
      unfold pyRandint
      rw [if_neg (Nat.not_lt.mpr hmin)]
    refine ⟨pySample (2 + rCount % (min 5 (unselIdx group).length - 2 + 1))
        (unselIdx group) rSample, ?_, ?_, ?_, ?_⟩
    · simp only [answerCheckboxGroup, hne, Bool.false_eq_true, if_false, hcount]
    · rw [pySample_length]
      · omega
      · have := Nat.mod_lt rCount
          (show 0 < min 5 (unselIdx group).length - 2 + 1 by omega)
        omega
    · rw [pySample_length]
      · have := Nat.mod_lt rCount
          (show 0 < min 5 (unselIdx group).length - 2 + 1 by omega)
        omega
      · have := Nat.mod_lt rCount
          (show 0 < min 5 (unselIdx group).length - 2 + 1 by omega)
        omega
    · intro i hi
      exact (mem_unselIdx group i).mp (pySample_subset _ _ _ i hi)
  · intro h1
    have hpos : 0 < (unselIdx group).length := by omega
    have hne : (unselIdx group).isEmpty = false := by
      rw [List.isEmpty_eq_false_iff_exists_mem]
      exact List.exists_mem_of_length_pos hpos
    have hm : min 5 (unselIdx group).length = 1 := by
      rw [h1]
      decide
    have herr : pyRandint 2 (min 5 (unselIdx group).length) rCount =
        .error .valueError := by
      unfold pyRandint
      rw [if_pos (by rw [hm]; omega)]
    simp only [answerCheckboxGroup, hne, Bool.false_eq_true, if_false, herr]

/-- Counterexample for C1: a group whose only checkbox is unselected, and a
six-checkbox group with five already selected, each make the handler raise
`ValueError` (from `randint(2, 1)`) instead of completing normally. -/
theorem answerCheckboxGroup_single_unselected_raises :
    answerCheckboxGroup [⟨false⟩] 0 0 = .error .valueError
  ∧ answerCheckboxGroup [⟨true⟩, ⟨true⟩, ⟨true⟩, ⟨true⟩, ⟨true⟩, ⟨false⟩] 0 0 =
      .error .valueError := ⟨rfl, rfl⟩

/-- Witness for the amended C1 theorem: a three-checkbox group with all
three unselected yields a valid pick set. -/
theorem answerCheckboxGroup_spec_witness :
    ∃ picks, answerCheckboxGroup [⟨false⟩, ⟨false⟩, ⟨false⟩] 1 1 = .ok picks
      ∧ 2 ≤ picks.length
      ∧ picks.length ≤ min 5 (unselIdx [⟨false⟩, ⟨false⟩, ⟨false⟩]).length
      ∧ ∀ i ∈ picks, i < ([⟨false⟩, ⟨false⟩, ⟨false⟩] : List CheckboxEl).length
          ∧ (([⟨false⟩, ⟨false⟩, ⟨false⟩] : List CheckboxEl).getD i ⟨true⟩).selected = false :=
  (answerCheckboxGroup_spec [⟨false⟩, ⟨false⟩, ⟨false⟩] 1 1).2.1 (by decide)

theorem scanFrames_allOk (fs : List (Except PyError (Option String)))
    (h : ∀ f ∈ fs, ∃ s, f = .ok s) :
    scanFrames fs = .ok (fs.any frameOkMarker) := by
  induction fs with
  | nil => rfl
  | cons f rest ih =>
    rcases h f (List.mem_cons_self _ _) with ⟨s, hs⟩
    subst hs
    by_cases hm : hasChallengeMarker (pyLower (s.getD "")) <;>
      simp [scanFrames, frameOkMarker, hm,
        ih (fun g hg => h g (List.mem_cons_of_mem _ hg))]

/-- C6: when no inspection step raises, the detector returns `true` exactly
when some embedded iframe's source URL contains a challenge-provider marker
(recaptcha, hcaptcha, geetest) or some page text node contains "captcha"
case-insensitively; and whenever the inspection body raises, the detector
returns `false` (fail-open) instead of raising or reporting a challenge. -/
theorem detectCaptcha_spec (p : CaptchaPage) :
    (∀ fs nodes, p.iframesQ = .ok fs → p.textNodesQ = .ok nodes →
      (∀ f ∈ fs, ∃ s, f = .ok s) →
      (detectCaptcha p = true ↔
        (fs.any frameOkMarker = true ∨ textHasCaptcha nodes = true)))
  ∧ (∀ e, detectCaptchaE p = .error e → detectCaptcha p = false) := by
  constructor
  · intro fs nodes hf ht hok
    have hs := scanFrames_allOk fs hok
    cases hany : fs.any frameOkMarker <;>
      simp [detectCaptcha, detectCaptchaE, hf, ht, hs, hany]
  · intro e he
    unfold detectCaptcha
    rw [he]

/-- Witness for C6: a page with one recaptcha iframe and no captcha text is
detected; evaluated through the theorem at a concrete page. -/
theorem detectCaptcha_spec_witness :
    detectCaptcha
      { iframesQ := .ok [.ok (some "https://www.google.com/recaptcha/api2")],
        textNodesQ := .ok [] } = true :=
  ((detectCaptcha_spec
      { iframesQ := .ok [.ok (some "https://www.google.com/recaptcha/api2")],
        textNodesQ := .ok [] }).1
    [.ok (some "https://www.google.com/recaptcha/api2")] [] rfl rfl
    (by intro f hf; simp at hf; exact ⟨_, hf⟩)).mpr (by decide)

/-- C3: the loop never clears `alive` on its own — a detected challenge, a
failed advance, and any exception raised inside the pass each yield
`running = false` with `alive` unchanged (Paused, not Stopped), and a whole
stream of pass outcomes preserves `alive`; exceptions are consumed, never
propagated (the iteration is total in the `Except` body outcome). -/
theorem threadIter_never_stops (s : RunState) :
    (∀ body, (threadIter s body).alive = s.alive)
  ∧ (s.running = true → ∀ e, threadIter s (.error e) =
      { alive := s.alive, running := false })
  ∧ (s.running = true → threadIter s (.ok .captcha) =
      { alive := s.alive, running := false })
  ∧ (s.running = true → threadIter s (.ok (.clicked false)) =
      { alive := s.alive, running := false })
  ∧ (s.running = true → threadIter s (.ok (.clicked true)) = s)
  ∧ (∀ bodies, (runWorker s bodies).alive = s.alive) := by
  have halive : ∀ (t : RunState) (body : Except PyError PassResult),
      (threadIter t body).alive = t.alive := by
    intro t body
    unfold threadIter
    by_cases h : t.running
    · rcases body with e | pr
      · simp [h]
      · rcases pr with _ | b
        · simp [h]
        · cases b <;> simp [h]
    · simp [h]
  refine ⟨halive s, ?_, ?_, ?_, ?_, ?_⟩
  · intro hr e; simp [threadIter, hr]
  · intro hr; simp [threadIter, hr]
  · intro hr; simp [threadIter, hr]
  · intro hr; simp [threadIter, hr]
  · intro bodies
    induction bodies generalizing s with
    | nil => rfl
    | cons b rest ih =>
      show (runWorker (threadIter s b) rest).alive = s.alive
      rw [ih (threadIter s b), halive]

/-- Witness for C3: from the running-and-alive state, a captcha pass
outcome moves the loop to Paused (alive, not running). -/
theorem threadIter_never_stops_witness :
    threadIter { alive := true, running := true } (.ok .captcha) =
      { alive := true, running := false } :=
  (threadIter_never_stops { alive := true, running := true }).2.2.1 rfl

/-- C7: under the realism hypothesis that clicking a missing element fails
at every stage, the robust click returns `false` exactly when all three
stages fail (the pointer-path stage failing also when ActionChains or the
driver is unavailable); it returns `true` as soon as a stage succeeds,
attempting no later stage; and every stage's own failure is suppressed,
falling through to the next — the result is a plain boolean for every
input, never a raised exception. -/
theorem safeClick_spec (env : ClickEnv)
    (hmissing : env.elPresent = false →
      stageOk env.directRes = false ∧ stageOk env.chainRes = false ∧
      stageOk env.dispatchRes = false) :
    ((safeClick env).1 = false ↔
      (stageOk env.directRes = false
        ∧ ((env.chainsAvail && env.driverAvail) = true → stageOk env.chainRes = false)
        ∧ stageOk env.dispatchRes = false))
  ∧ (env.elPresent = true → stageOk env.directRes = true →
      safeClick env = (true, [ClickStage.direct]))
  ∧ (env.elPresent = true → stageOk env.directRes = false →
      (env.chainsAvail && env.driverAvail) = true → stageOk env.chainRes = true →
      safeClick env = (true, [ClickStage.direct, ClickStage.chain]))
  ∧ (env.elPresent = true → stageOk env.directRes = false →
      (env.chainsAvail && env.driverAvail) = true → stageOk env.chainRes = false →
      stageOk env.dispatchRes = true →
      safeClick env = (true, [ClickStage.direct, ClickStage.chain, ClickStage.dispatch]))
  ∧ (env.elPresent = true → stageOk env.directRes = false →
      (env.chainsAvail && env.driverAvail) = false → stageOk env.dispatchRes = true →
      safeClick env = (true, [ClickStage.direct, ClickStage.dispatch])) := by
  rcases env with ⟨elp, dres, ca, da, cres, sres, xres⟩
  refine ⟨?_, ?_, ?_, ?_, ?_⟩
  · cases elp
    · rcases hmissing rfl with ⟨h1, h2, h3⟩
      simp only [safeClick]
      simp [h1, h2, h3]
    · cases dres with
      | ok u => simp [safeClick, stageOk]
      | error e =>
        cases hav : ca && da
        · cases xres with
          | ok u => simp [safeClick, stageOk, hav]
          | error e2 => simp [safeClick, stageOk, hav]
        · cases cres with
          | ok u => simp [safeClick, stageOk, hav]
          | error e2 =>
            cases xres with
            | ok u => simp [safeClick, stageOk, hav]
            | error e3 => simp [safeClick, stageOk, hav]
  · intro hel hd
    cases dres with
    | ok u =>
      simp [safeClick, hel]
      exact hel
    | error e => simp [stageOk] at hd
  · intro hel hd hav hc
    cases dres with
    | ok u => simp [stageOk] at hd
    | error e =>
      cases cres with
      | ok u =>
        simp [safeClick, hel, hav]
        exact hel
      | error e2 => simp [stageOk] at hc
  · intro hel hd hav hc hx
    cases dres with
    | ok u => simp [stageOk] at hd
    | error e =>
      cases cres with
      | ok u => simp [stageOk] at hc
      | error e2 =>
        cases xres with
        | ok u =>
          simp [safeClick, hel, hav]
          exact hel
        | error e3 => simp [stageOk] at hx
  · intro hel hd hav hx
    cases dres with
    | ok u => simp [stageOk] at hd
    | error e =>
      cases xres with
      | ok u =>
        simp [safeClick, hel, hav]
        exact hel
      | error e2 => simp [stageOk] at hx

/-- Faithfulness of the slice count: the source's continuation condition
`k * 0.1 < total` holds exactly for the first `numSlices total` indices. -/
theorem lt_numSlices_iff (total : ℚ) (h : 0 ≤ total) (k : ℕ) :
    ((k : ℚ) * sliceLen < total) ↔ k < numSlices total := by
  have hceil : (0 : ℤ) ≤ Int.ceil (total * 10) := by
    rw [Int.le_ceil_iff]
    push_cast
    linarith
  constructor
  · intro hk
    have h10 : (k : ℚ) < total * 10 := by
      rw [sliceLen] at hk
      linarith
    have : (k : ℤ) < Int.ceil (total * 10) := by
      rw [Int.lt_ceil]
      exact_mod_cast h10
    unfold numSlices
    omega
  · intro hk
    unfold numSlices at hk
    have : (k : ℤ) < Int.ceil (total * 10) := by omega
    rw [Int.lt_ceil] at this
    have h10 : (k : ℚ) < total * 10 := by exact_mod_cast this
    rw [sliceLen]
    linarith

theorem sleepLoopAux_spec (flags : ℕ → Bool) :
    ∀ (n i : ℕ),
      ((sleepLoopAux flags n i).1 = true →
        (sleepLoopAux flags n i).2 = i + n
          ∧ ∀ j, i ≤ j → j < i + n → flags j = true)
    ∧ ((sleepLoopAux flags n i).1 = false →
        flags (sleepLoopAux flags n i).2 = false
          ∧ i ≤ (sleepLoopAux flags n i).2
          ∧ (sleepLoopAux flags n i).2 < i + n
          ∧ ∀ j, i ≤ j → j < (sleepLoopAux flags n i).2 → flags j = true)
    ∧ ((∀ j, i ≤ j → j < i + n → flags j = true) →
        (sleepLoopAux flags n i).1 = true) := by
  intro n
  induction n with
  | zero =>
    intro i
    refine ⟨?_, ?_, ?_⟩
    · intro _
      exact ⟨rfl, fun j h1 h2 => absurd h2 (by omega)⟩
    · intro h
      simp [sleepLoopAux] at h
    · intro _
      rfl
  | succ m ih =>
    intro i
    by_cases hf : flags i = true
    · have hred : sleepLoopAux flags (m + 1) i = sleepLoopAux flags m (i + 1) := by
        simp [sleepLoopAux, hf]
      refine ⟨?_, ?_, ?_⟩
      · intro h
        rw [hred] at h
        rcases (ih (i + 1)).1 h with ⟨hc, hall⟩
        rw [hred]
        refine ⟨by omega, fun j h1 h2 => ?_⟩
        rcases Nat.eq_or_lt_of_le h1 with he | hlt
        · rw [← he]; exact hf
        · exact hall j (by omega) (by omega)
      · intro h
        rw [hred] at h
        rcases (ih (i + 1)).2.1 h with ⟨hfl, hge, hlt, hall⟩
        rw [hred]
        refine ⟨hfl, by omega, by omega, fun j h1 h2 => ?_⟩
        rcases Nat.eq_or_lt_of_le h1 with he | hgt
        · rw [← he]; exact hf
        · exact hall j (by omega) h2
      · intro hall
        rw [hred]
        exact (ih (i + 1)).2.2 (fun j h1 h2 => hall j (by omega) (by omega))
    · have hf' : flags i = false := by
        cases hfi : flags i
        · rfl
        · exact absurd hfi hf
      have hred : sleepLoopAux flags (m + 1) i = (false, i) := by
        simp [sleepLoopAux, hf']
      refine ⟨?_, ?_, ?_⟩
      · intro h
        rw [hred] at h
        simp at h
      · intro _
        rw [hred]
        exact ⟨hf', le_refl i, by omega, fun j h1 h2 => absurd h2 (by omega)⟩
      · intro hall
        exact absurd (hall i (le_refl i) (by omega)) (by simp [hf'])

/-- C8: the pacing duration is `uniform(min,max) + uniform(0, 0.4)` = the
sum of the two samples; the sleep proceeds in slices, re-checking the
`running` flag before every slice; it returns `true` exactly when every
check passed — i.e. only after the full duration's worth of slices
elapsed — and returns `false` at the first cleared flag having slept no
further slice; in particular with `running` already false before the first
slice (and a positive duration) it returns `false` immediately, with zero
slices slept. -/
theorem interruptibleSleep_spec (flags : ℕ → Bool) (u1 u2 : ℚ) :
    (randDelay u1 u2 = u1 + u2)
  ∧ ((interruptibleSleep flags u1 u2).1 = true ↔
      ∀ j < numSlices (u1 + u2), flags j = true)
  ∧ ((interruptibleSleep flags u1 u2).1 = true →
      (interruptibleSleep flags u1 u2).2 = numSlices (u1 + u2))
  ∧ ((interruptibleSleep flags u1 u2).1 = false →
      flags (interruptibleSleep flags u1 u2).2 = false
        ∧ (interruptibleSleep flags u1 u2).2 < numSlices (u1 + u2)
        ∧ ∀ j < (interruptibleSleep flags u1 u2).2, flags j = true)
  ∧ (flags 0 = false → 0 < u1 + u2 → 0 ≤ u1 + u2 →
      interruptibleSleep flags u1 u2 = (false, 0)) := by
  unfold interruptibleSleep randDelay
  have hspec := sleepLoopAux_spec flags (numSlices (u1 + u2)) 0
  refine ⟨rfl, ⟨?_, ?_⟩, ?_, ?_, ?_⟩
  · intro h j hj
    exact (hspec.1 h).2 j (by omega) (by omega)
  · intro hall
    exact hspec.2.2 (fun j _ h2 => hall j (by omega))
  · intro h
    have h2 := (hspec.1 h).1
    omega
  · intro h
    rcases hspec.2.1 h with ⟨hfl, _, hlt, hall⟩
    exact ⟨hfl, by omega, fun j hj => hall j (by omega) hj⟩
  · intro hf0 hpos _
    have hn : 0 < numSlices (u1 + u2) := by
      rw [← lt_numSlices_iff (u1 + u2) (by linarith) 0]
      simpa using hpos
    rcases Nat.exists_eq_succ_of_ne_zero (by omega :
        numSlices (u1 + u2) ≠ 0) with ⟨m, hm⟩
    rw [hm]
    simp [sleepLoopAux, hf0]

/-- Witness for C8: with the flag cleared from the start and a positive
duration, the sleep returns `false` immediately with zero slices slept. -/
theorem interruptibleSleep_spec_witness :
    interruptibleSleep (fun _ => false) 1 0 = (false, 0) :=
  (interruptibleSleep_spec (fun _ => false) 1 0).2.2.2.2
    rfl (by norm_num) (by norm_num)

/-- Witness for C7: a present element whose direct click fails but whose
pointer-path click succeeds yields `true` after exactly two stages. -/
theorem safeClick_spec_witness :
    safeClick
      { elPresent := true, directRes := .error .domError, chainsAvail := true,
        driverAvail := true, chainRes := .ok (), scrollRes := .ok (),
        dispatchRes := .error .domError } =
      (true, [ClickStage.direct, ClickStage.chain]) :=
  (safeClick_spec
      { elPresent := true, directRes := .error .domError, chainsAvail := true,
        driverAvail := true, chainRes := .ok (), scrollRes := .ok (),
        dispatchRes := .error .domError }
      (by intro h; exact absurd h (by decide))).2.2.1 rfl rfl rfl rfl

theorem pyStrip_eq_empty_iff (s : String) :
    pyStrip s = "" ↔ s.data.all isPySpace = true := by
  unfold pyStrip
  rw [String.ext_iff]
  show ((s.data.dropWhile isPySpace).reverse.dropWhile isPySpace).reverse = [] ↔ _
  rw [List.reverse_eq_nil_iff, List.dropWhile_eq_nil_iff, List.all_eq_true]
  constructor
  · intro h x hx
    rcases List.mem_append.mp (by
        rw [List.takeWhile_append_dropWhile]
        exact hx :
        x ∈ s.data.takeWhile isPySpace ++ s.data.dropWhile isPySpace) with hx1 | hx2
    · exact List.mem_takeWhile_imp hx1
    · exact h x (List.mem_reverse.mpr hx2)
  · intro h x hx
    exact h x (List.dropWhile_sublist isPySpace |>.subset (List.mem_reverse.mp hx))

/-- C10: both text handlers strip the current value before the non-empty
check — a field whose value is only whitespace (and a successful synthesis)
is overwritten with the synthesized answer, while a field containing any
non-whitespace character is never written. -/
theorem answerTexts_strip_check (fields areas : List TextField)
    (synthOf synthOf2 : ℕ → Except PyError String) (i : ℕ) (v a : String) :
    (fields.get? i = some { value := some v } → v.data.all isPySpace = true →
      synthOf i = .ok a → (i, a) ∈ answerTexts fields synthOf)
  ∧ (fields.get? i = some { value := some v } → v.data.all isPySpace = false →
      ∀ b, (i, b) ∉ answerTexts fields synthOf)
  ∧ (areas.get? i = some { value := some v } → v.data.all isPySpace = true →
      synthOf2 i = .ok a → (i, a) ∈ answerTextareas areas synthOf2)
  ∧ (areas.get? i = some { value := some v } → v.data.all isPySpace = false →
      ∀ b, (i, b) ∉ answerTextareas areas synthOf2) := by
  have hstrip : ∀ w : String, w.data.all isPySpace = true →
      pyStrip (pyOrStr (some w) "") = "" := by
    intro w hw
    by_cases he : w = ""
    · subst he
      decide
    · have hor : pyOrStr (some w) "" = w := by simp [pyOrStr, he]
      rw [hor]
      exact (pyStrip_eq_empty_iff w).mpr hw
  have hstrip' : ∀ w : String, w.data.all isPySpace = false →
      ¬ pyStrip (pyOrStr (some w) "") = "" := by
    intro w hw hc
    have hne : w ≠ "" := by
      intro he
      subst he
      exact absurd hw (by decide)
    have hor : pyOrStr (some w) "" = w := by simp [pyOrStr, hne]
    rw [hor, pyStrip_eq_empty_iff w] at hc
    rw [hc] at hw
    simp at hw
  have hmem : ∀ (l : List TextField) (g : ℕ → Except PyError String),
      l.get? i = some { value := some v } → v.data.all isPySpace = true →
      g i = .ok a →
      (i, a) ∈ l.enum.filterMap (fun p =>
        if pyStrip (pyOrStr p.2.value "") = "" then
          match g p.1 with
          | .ok x => some (p.1, x)
          | .error _ => none
        else none) := by
    intro l g hl hv hg
    rw [List.mem_filterMap]
    refine ⟨(i, { value := some v }), List.mk_mem_enum_iff_get?.mpr hl, ?_⟩
    rw [if_pos (hstrip v hv), hg]
  have hnot : ∀ (l : List TextField) (g : ℕ → Except PyError String),
      l.get? i = some { value := some v } → v.data.all isPySpace = false →
      ∀ b, (i, b) ∉ l.enum.filterMap (fun p =>
        if pyStrip (pyOrStr p.2.value "") = "" then
          match g p.1 with
          | .ok x => some (p.1, x)
          | .error _ => none
        else none) := by
    intro l g hl hv b hb
    rw [List.mem_filterMap] at hb
    rcases hb with ⟨⟨j, f⟩, hjf, hout⟩
    by_cases hcond : pyStrip (pyOrStr f.value "") = ""
    · rw [if_pos hcond] at hout
      have hj : j = i := by
        cases hgj : g j with
        | ok x => rw [hgj] at hout; simp at hout; exact hout.1
        | error e => rw [hgj] at hout; simp at hout
      subst hj
      have hf : f = { value := some v } := by
        have := List.mk_mem_enum_iff_get?.mp hjf
        rw [hl] at this
        exact (Option.some_inj.mp this).symm
      rw [hf] at hcond
      exact hstrip' v hv hcond
    · rw [if_neg hcond] at hout
      simp at hout
  exact ⟨fun h1 h2 h3 => hmem fields synthOf h1 h2 h3,
    fun h1 h2 => hnot fields synthOf h1 h2,
    fun h1 h2 h3 => hmem areas synthOf2 h1 h2 h3,
    fun h1 h2 => hnot areas synthOf2 h1 h2⟩

/-- Witness for C10: a two-field page whose first field holds only spaces
and whose second holds text — the first is overwritten, the second is not. -/
theorem answerTexts_strip_check_witness :
    ((0, "Yes") ∈ answerTexts [{ value := some "   " }, { value := some "hi" }]
        (fun _ => .ok "Yes"))
  ∧ ((1, "Yes") ∉ answerTexts [{ value := some "   " }, { value := some "hi" }]
        (fun _ => .ok "Yes")) :=
  ⟨(answerTexts_strip_check [{ value := some "   " }, { value := some "hi" }] []
      (fun _ => .ok "Yes") (fun _ => .ok "Yes") 0 "   " "Yes").1 rfl (by decide) rfl,
   fun hc => (answerTexts_strip_check [{ value := some "   " }, { value := some "hi" }] []
      (fun _ => .ok "Yes") (fun _ => .ok "Yes") 1 "hi" "Yes").2.1 rfl (by decide) "Yes" hc⟩

/-- Counterexample for C5: with both a `value` attribute and an associated
label present, the code uses the `value` attribute, not the associated
label the claimed order would pick. -/
theorem radioOptLabel_not_label_first :
    radioOptLabel cexElem = "V"
  ∧ claimedOptLabel cexElem = "Associated label"
  ∧ radioOptLabel cexElem ≠ claimedOptLabel cexElem := by
  refine ⟨rfl, rfl, by decide⟩

/-- C5 (amended): the radio option's display label tries, in this order:
the `value` attribute, the `aria-label` attribute, then the
`_get_label_text` chain (associated ancestor label, preceding label,
aria-label, aria-labelledby reference) — the first truthy (non-empty)
source wins, the winner is stripped, and the placeholder `"<opt>"` is used
exactly when the stripped winner is empty. -/
theorem radioOptLabel_order (e : LElem) :
    (∀ v, e.value = some v → v ≠ "" →
      radioOptLabel e = (if pyStrip v = "" then "<opt>" else pyStrip v))
  ∧ ((e.value = none ∨ e.value = some "") → ∀ v, e.ariaLabel = some v → v ≠ "" →
      radioOptLabel e = (if pyStrip v = "" then "<opt>" else pyStrip v))
  ∧ ((e.value = none ∨ e.value = some "") →
      (e.ariaLabel = none ∨ e.ariaLabel = some "") →
      radioOptLabel e =
        (if pyStrip (getLabelText e) = "" then "<opt>" else pyStrip (getLabelText e)))
  ∧ (pyStrip (e.ancLabelText.getD "") ≠ "" →
      getLabelText e = pyStrip (e.ancLabelText.getD ""))
  ∧ (pyStrip (e.ancLabelText.getD "") = "" →
      pyStrip (e.precLabelText.getD "") ≠ "" →
      getLabelText e = pyStrip (e.precLabelText.getD ""))
  ∧ (pyStrip (e.ancLabelText.getD "") = "" →
      pyStrip (e.precLabelText.getD "") = "" →
      pyStrip (e.ariaLabel.getD "") ≠ "" →
      getLabelText e = pyStrip (e.ariaLabel.getD ""))
  ∧ (pyStrip (e.ancLabelText.getD "") = "" →
      pyStrip (e.precLabelText.getD "") = "" →
      pyStrip (e.ariaLabel.getD "") = "" →
      pyStrip (e.ariaLabelledby.getD "") ≠ "" →
      getLabelText e = (match e.labelledbyText with
        | some t => pyStrip t
        | none => ""))
  ∧ (pyStrip (e.ancLabelText.getD "") = "" →
      pyStrip (e.precLabelText.getD "") = "" →
      pyStrip (e.ariaLabel.getD "") = "" →
      pyStrip (e.ariaLabelledby.getD "") = "" →
      getLabelText e = "") := by
  refine ⟨?_, ?_, ?_, ?_, ?_, ?_, ?_, ?_⟩
  · intro v hv hne
    unfold radioOptLabel
    rw [hv]
    have hred : pyOrStr (some v) (pyOrStr e.ariaLabel (getLabelText e)) = v := by
      simp [pyOrStr, hne]
    rw [hred]
  · intro hval v hv hne
    unfold radioOptLabel
    have h1 : pyOrStr e.value (pyOrStr e.ariaLabel (getLabelText e)) =
        pyOrStr e.ariaLabel (getLabelText e) := by
      rcases hval with h | h <;> simp [pyOrStr, h]
    have h2 : pyOrStr e.ariaLabel (getLabelText e) = v := by
      simp [pyOrStr, hv, hne]
    rw [h1, h2]
  · intro hval haria
    unfold radioOptLabel
    have h1 : pyOrStr e.value (pyOrStr e.ariaLabel (getLabelText e)) =
        pyOrStr e.ariaLabel (getLabelText e) := by
      rcases hval with h | h <;> simp [pyOrStr, h]
    have h2 : pyOrStr e.ariaLabel (getLabelText e) = getLabelText e := by
      rcases haria with h | h <;> simp [pyOrStr, h]
    rw [h1, h2]
  · intro h
    simp only [getLabelText]
    rw [if_pos h]
  · intro h1 h2
    simp only [getLabelText]
    rw [if_neg (by simp [h1]), if_pos h2]
  · intro h1 h2 h3
    simp only [getLabelText]
    rw [if_neg (by simp [h1]), if_neg (by simp [h2]), if_pos h3]
  · intro h1 h2 h3 h4
    simp only [getLabelText]
    rw [if_neg (by simp [h1]), if_neg (by simp [h2]), if_neg (by simp [h3]),
      if_pos h4]
  · intro h1 h2 h3 h4
    simp only [getLabelText]
    rw [if_neg (by simp [h1]), if_neg (by simp [h2]), if_neg (by simp [h3]),
      if_neg (by simp [h4])]

/-- Witness for the amended C5 theorem: with no `value` and a non-empty
`aria-label`, the label is the stripped `aria-label`. -/
theorem radioOptLabel_order_witness :
    radioOptLabel ariaElem = (if pyStrip "Aria" = "" then "<opt>" else pyStrip "Aria") :=
  (radioOptLabel_order ariaElem).2.1 (Or.inl rfl) "Aria" rfl (by decide)

theorem getD_lt (page : List RadioEl) (j : ℕ) (h : j < page.length) :
    page.getD j rdefault = page[j] := by
  rw [List.getD_eq_getElem?_getD, List.getElem?_eq_getElem h]
  rfl

theorem length_bumpSel (page : List RadioEl) (j : ℕ) :
    (bumpSel page j).length = page.length :=
  List.length_set page j _

theorem gidAt_bumpSel (page : List RadioEl) (j k : ℕ) :
    gidAt (bumpSel page j) k = gidAt page k := by
  by_cases hj : j < page.length
  · by_cases hk : j = k
    · subst hk
      unfold gidAt bumpSel
      rw [List.getD_eq_getElem?_getD, List.getElem?_set_self',
        List.getElem?_eq_getElem hj]
      rfl
    · unfold gidAt bumpSel
      rw [List.getD_eq_getElem?_getD, List.getElem?_set_ne hk,
        ← List.getD_eq_getElem?_getD]
  · unfold bumpSel
    rw [List.set_eq_of_length_le (by omega)]

theorem selAt_bumpSel_self (page : List RadioEl) (j : ℕ) (h : j < page.length) :
    selAt (bumpSel page j) j = true := by
  unfold selAt bumpSel
  rw [List.getD_eq_getElem?_getD, List.getElem?_set_self',
    List.getElem?_eq_getElem h]
  rfl

theorem selAt_bumpSel_mono (page : List RadioEl) (j k : ℕ)
    (h : selAt page k = true) : selAt (bumpSel page j) k = true := by
  by_cases hj : j < page.length
  · by_cases hk : j = k
    · subst hk
      exact selAt_bumpSel_self page j hj
    · unfold selAt bumpSel
      rw [List.getD_eq_getElem?_getD, List.getElem?_set_ne hk,
        ← List.getD_eq_getElem?_getD]
      exact h
  · unfold bumpSel
    rw [List.set_eq_of_length_le (by omega)]
    exact h

theorem groupMembers_bumpSel (page : List RadioEl) (j g : ℕ) :
    groupMembers (bumpSel page j) g = groupMembers page g := by
  unfold groupMembers
  rw [length_bumpSel]
  exact List.filter_congr (fun x _ => by rw [gidAt_bumpSel])

theorem mem_groupMembers (page : List RadioEl) (g j : ℕ) :
    j ∈ groupMembers page g ↔ j < page.length ∧ gidAt page j = g := by
  simp [groupMembers, List.mem_filter, List.mem_range]

theorem groupAnswered_bumpSel_mono (page : List RadioEl) (j g : ℕ)
    (h : groupAnswered page g = true) :
    groupAnswered (bumpSel page j) g = true := by
  unfold groupAnswered at h ⊢
  rw [groupMembers_bumpSel]
  rw [List.any_eq_true] at h ⊢
  rcases h with ⟨x, hx, hsel⟩
  exact ⟨x, hx, selAt_bumpSel_mono page j x hsel⟩

theorem groupAnswered_bumpSel_self (page : List RadioEl) (j g : ℕ)
    (h : j ∈ groupMembers page g) :
    groupAnswered (bumpSel page j) g = true := by
  unfold groupAnswered
  rw [groupMembers_bumpSel, List.any_eq_true]
  exact ⟨j, h, selAt_bumpSel_self page j ((mem_groupMembers page g j).mp h).1⟩

theorem opts_getD_mem (opts : List ℕ) (m : ℕ) (h : opts ≠ []) :
    opts.getD (m % opts.length) 0 ∈ opts := by
  have hlen : 0 < opts.length := List.length_pos.mpr h
  have hlt : m % opts.length < opts.length := Nat.mod_lt _ hlen
  rw [List.getD_eq_getElem opts 0 hlt]
  exact List.getElem_mem hlt

theorem radiosLoop_no_commits (choose : ℕ → ℕ) (clickOk flags : ℕ → Bool) :
    ∀ (idxs seen : List ℕ) (page : List RadioEl),
      (∀ i ∈ idxs, groupAnswered page (gidAt page i) = true) →
      radiosLoop choose clickOk flags idxs seen page = ([], page) := by
  intro idxs
  induction idxs with
  | nil => intro seen page _; rfl
  | cons i rest ih =>
    intro seen page h
    have hans : groupAnswered page (gidAt page i) = true :=
      h i (List.mem_cons_self i rest)
    have hrest : ∀ x ∈ rest, groupAnswered page (gidAt page x) = true :=
      fun x hx => h x (List.mem_cons_of_mem i hx)
    by_cases hf : flags i = false
    · simp [radiosLoop, hf]
    · by_cases hs : gidAt page i ∈ seen
      · simp only [radiosLoop, if_neg hf, if_pos hs]
        exact ih seen page hrest
      · simp only [radiosLoop, if_neg hf, if_neg hs, hans, if_true]
        exact ih _ page hrest

theorem radiosLoop_length (choose : ℕ → ℕ) (clickOk flags : ℕ → Bool) :
    ∀ (idxs seen : List ℕ) (page : List RadioEl),
      (radiosLoop choose clickOk flags idxs seen page).2.length = page.length := by
  intro idxs
  induction idxs with
  | nil => intro seen page; rfl
  | cons i rest ih =>
    intro seen page
    by_cases hf : flags i = false
    · simp [radiosLoop, hf]
    · by_cases hs : gidAt page i ∈ seen
      · simp only [radiosLoop, if_neg hf, if_pos hs]
        exact ih seen page
      · by_cases hans : groupAnswered page (gidAt page i) = true
        · simp only [radiosLoop, if_neg hf, if_neg hs, hans, if_true]
          exact ih _ page
        · have hans' : groupAnswered page (gidAt page i) = false :=
            Bool.eq_false_iff.mpr hans
          simp only [radiosLoop, if_neg hf, if_neg hs, hans', Bool.false_eq_true,
            if_false]
          by_cases hc : clickOk i = true
          · simp [hc]
            rw [ih _ (bumpSel page _), length_bumpSel]
          · simp [hc]
            exact ih _ page

theorem radiosLoop_gid (choose : ℕ → ℕ) (clickOk flags : ℕ → Bool) :
    ∀ (idxs seen : List ℕ) (page : List RadioEl) (k : ℕ),
      gidAt (radiosLoop choose clickOk flags idxs seen page).2 k = gidAt page k := by
  intro idxs
  induction idxs with
  | nil => intro seen page k; rfl
  | cons i rest ih =>
    intro seen page k
    by_cases hf : flags i = false
    · simp [radiosLoop, hf]
    · by_cases hs : gidAt page i ∈ seen
      · simp only [radiosLoop, if_neg hf, if_pos hs]
        exact ih seen page k
      · by_cases hans : groupAnswered page (gidAt page i) = true
        · simp only [radiosLoop, if_neg hf, if_neg hs, hans, if_true]
          exact ih _ page k
        · have hans' : groupAnswered page (gidAt page i) = false :=
            Bool.eq_false_iff.mpr hans
          simp only [radiosLoop, if_neg hf, if_neg hs, hans', Bool.false_eq_true,
            if_false]
          by_cases hc : clickOk i = true
          · simp [hc]
            rw [ih _ (bumpSel page _) k, gidAt_bumpSel]
          · simp [hc]
            exact ih _ page k

theorem radiosLoop_answers_all (choose : ℕ → ℕ) :
    ∀ (idxs seen : List ℕ) (page : List RadioEl),
      (∀ i ∈ idxs, i < page.length) →
      (∀ g ∈ seen, groupAnswered page g = true) →
      (∀ g, groupAnswered page g = true →
        groupAnswered
          (radiosLoop choose (fun _ => true) (fun _ => true) idxs seen page).2 g = true)
      ∧ (∀ i ∈ idxs,
        groupAnswered
          (radiosLoop choose (fun _ => true) (fun _ => true) idxs seen page).2
          (gidAt page i) = true) := by
  intro idxs
  induction idxs with
  | nil =>
    intro seen page _ _
    exact ⟨fun g hg => hg, fun i hi => absurd hi (List.not_mem_nil i)⟩
  | cons i rest ih =>
    intro seen page hlen hseen
    have hlenr : ∀ x ∈ rest, x < page.length :=
      fun x hx => hlen x (List.mem_cons_of_mem i hx)
    by_cases hs : gidAt page i ∈ seen
    · have hred : radiosLoop choose (fun _ => true) (fun _ => true) (i :: rest) seen page
          = radiosLoop choose (fun _ => true) (fun _ => true) rest seen page := by
        simp only [radiosLoop, if_pos hs]
        simp
      rcases ih seen page hlenr hseen with ⟨hmono, hall⟩
      rw [hred]
      refine ⟨hmono, fun x hx => ?_⟩
      rcases List.mem_cons.mp hx with he | hxr
      · rw [he]
        exact hmono _ (hseen _ hs)
      · exact hall x hxr
    · by_cases hans : groupAnswered page (gidAt page i) = true
      · have hred : radiosLoop choose (fun _ => true) (fun _ => true) (i :: rest) seen page
            = radiosLoop choose (fun _ => true) (fun _ => true) rest
                (gidAt page i :: seen) page := by
          simp only [radiosLoop, if_neg hs, hans, if_true]
          simp
        have hseen2 : ∀ g ∈ gidAt page i :: seen, groupAnswered page g = true := by
          intro g hg
          rcases List.mem_cons.mp hg with he | hgs
          · rw [he]; exact hans
          · exact hseen g hgs
        rcases ih (gidAt page i :: seen) page hlenr hseen2 with ⟨hmono, hall⟩
        rw [hred]
        refine ⟨hmono, fun x hx => ?_⟩
        rcases List.mem_cons.mp hx with he | hxr
        · rw [he]; exact hmono _ hans
        · exact hall x hxr
      · have hans' : groupAnswered page (gidAt page i) = false :=
          Bool.eq_false_iff.mpr hans
        have hi : i < page.length := hlen i (List.mem_cons_self i rest)
        have himem : i ∈ groupMembers page (gidAt page i) :=
          (mem_groupMembers page _ i).mpr ⟨hi, rfl⟩
        have hne : groupMembers page (gidAt page i) ≠ [] := by
          intro he
          rw [he] at himem
          exact absurd himem (List.not_mem_nil i)
        have hjmem : (groupMembers page (gidAt page i)).getD
            (choose i % (groupMembers page (gidAt page i)).length) 0
              ∈ groupMembers page (gidAt page i) := opts_getD_mem _ _ hne
        have hred : radiosLoop choose (fun _ => true) (fun _ => true) (i :: rest) seen page
            = ((groupMembers page (gidAt page i)).getD
                  (choose i % (groupMembers page (gidAt page i)).length) 0 ::
                (radiosLoop choose (fun _ => true) (fun _ => true) rest
                  (gidAt page i :: seen)
                  (bumpSel page ((groupMembers page (gidAt page i)).getD
                    (choose i % (groupMembers page (gidAt page i)).length) 0))).1,
               (radiosLoop choose (fun _ => true) (fun _ => true) rest
                  (gidAt page i :: seen)
                  (bumpSel page ((groupMembers page (gidAt page i)).getD
                    (choose i % (groupMembers page (gidAt page i)).length) 0))).2) := by
          simp only [radiosLoop, if_neg hs, hans', Bool.false_eq_true, if_false,
            if_true]
          simp
        set j := (groupMembers page (gidAt page i)).getD
            (choose i % (groupMembers page (gidAt page i)).length) 0 with hjdef
        have hseen2 : ∀ g ∈ gidAt page i :: seen,
            groupAnswered (bumpSel page j) g = true := by
          intro g hg
          rcases List.mem_cons.mp hg with he | hgs
          · rw [he]
            exact groupAnswered_bumpSel_self page j _ hjmem
          · exact groupAnswered_bumpSel_mono page j g (hseen g hgs)
        have hlen2 : ∀ x ∈ rest, x < (bumpSel page j).length := by
          rw [length_bumpSel]
          exact hlenr
        rcases ih (gidAt page i :: seen) (bumpSel page j) hlen2 hseen2 with ⟨hmono, hall⟩
        rw [hred]
        constructor
        · intro g hg
          exact hmono g (groupAnswered_bumpSel_mono page j g hg)
        · intro x hx
          rcases List.mem_cons.mp hx with he | hxr
          · rw [he]
            exact hmono _ (groupAnswered_bumpSel_self page j _ hjmem)
          · have hx2 := hall x hxr
            rw [gidAt_bumpSel] at hx2
            exact hx2

theorem radiosLoop_commit_gids (choose : ℕ → ℕ) (clickOk flags : ℕ → Bool) :
    ∀ (idxs seen : List ℕ) (page : List RadioEl),
      (∀ i ∈ idxs, i < page.length) →
      (∀ c ∈ (radiosLoop choose clickOk flags idxs seen page).1,
          gidAt page c ∉ seen)
      ∧ ((radiosLoop choose clickOk flags idxs seen page).1.map
          (fun c => gidAt page c)).Nodup := by
  intro idxs
  induction idxs with
  | nil =>
    intro seen page _
    exact ⟨fun c hc => absurd hc (List.not_mem_nil c), List.nodup_nil⟩
  | cons i rest ih =>
    intro seen page hlen
    have hlenr : ∀ x ∈ rest, x < page.length :=
      fun x hx => hlen x (List.mem_cons_of_mem i hx)
    by_cases hf : flags i = false
    · simp [radiosLoop, hf]
    · by_cases hs : gidAt page i ∈ seen
      · simp only [radiosLoop, if_neg hf, if_pos hs]
        exact ih seen page hlenr
      · by_cases hans : groupAnswered page (gidAt page i) = true
        · simp only [radiosLoop, if_neg hf, if_neg hs, hans, if_true]
          rcases ih (gidAt page i :: seen) page hlenr with ⟨havoid, hnd⟩
          exact ⟨fun c hc => fun hcs =>
            havoid c hc (List.mem_cons_of_mem _ hcs), hnd⟩
        · have hans' : groupAnswered page (gidAt page i) = false :=
            Bool.eq_false_iff.mpr hans
          have hi : i < page.length := hlen i (List.mem_cons_self i rest)
          have himem : i ∈ groupMembers page (gidAt page i) :=
            (mem_groupMembers page _ i).mpr ⟨hi, rfl⟩
          have hne : groupMembers page (gidAt page i) ≠ [] := by
            intro he
            rw [he] at himem
            exact absurd himem (List.not_mem_nil i)
          have hjmem : (groupMembers page (gidAt page i)).getD
              (choose i % (groupMembers page (gidAt page i)).length) 0
                ∈ groupMembers page (gidAt page i) := opts_getD_mem _ _ hne
          simp only [radiosLoop, if_neg hf, if_neg hs, hans', Bool.false_eq_true,
            if_false]
          set j := (groupMembers page (gidAt page i)).getD
              (choose i % (groupMembers page (gidAt page i)).length) 0 with hjdef
          have hjgid : gidAt page j = gidAt page i :=
            ((mem_groupMembers page _ j).mp hjmem).2
          set page2 := if clickOk i then bumpSel page j else page with hp2
          have hgid2 : ∀ k, gidAt page2 k = gidAt page k := by
            intro k
            rw [hp2]
            by_cases hc : clickOk i = true
            · simp [hc]
              exact gidAt_bumpSel page j k
            · simp [hc]
          have hlen2 : ∀ x ∈ rest, x < page2.length := by
            intro x hx
            rw [hp2]
            by_cases hc : clickOk i = true
            · simp [hc]
              rw [length_bumpSel]
              exact hlenr x hx
            · simp [hc]
              exact hlenr x hx
          rcases ih (gidAt page i :: seen) page2 hlen2 with ⟨havoid, hnd⟩
          have havoid' : ∀ c ∈ (radiosLoop choose clickOk flags rest
              (gidAt page i :: seen) page2).1, gidAt page c ∉ gidAt page i :: seen := by
            intro c hc
            rw [← hgid2 c]
            exact havoid c hc
          have hmapeq : ((radiosLoop choose clickOk flags rest
                (gidAt page i :: seen) page2).1.map (fun c => gidAt page2 c))
              = ((radiosLoop choose clickOk flags rest
                (gidAt page i :: seen) page2).1.map (fun c => gidAt page c)) :=
            List.map_congr_left (fun c _ => hgid2 c)
          constructor
          · intro c hc
            rcases List.mem_cons.mp hc with he | hcr
            · rw [he, hjgid]
              exact hs
            · intro hcs
              exact havoid' c hcr (List.mem_cons_of_mem _ hcs)
          · rw [List.map_cons, List.nodup_cons]
            constructor
            · intro hmem
              rcases List.mem_map.mp hmem with ⟨c, hc, hceq⟩
              have := havoid' c hc
              rw [hceq, hjgid] at this
              exact this (List.mem_cons_self _ _)
            · rw [← hmapeq]
              exact hnd

/-- C9: the single-choice handler skips every group that already has a
selection, deduplicates groups by group id within a pass (no two commits in
one pass target the same group), and after a full first pass (flags up,
clicks succeeding) a second pass over the resulting page — with any choice
function, click outcomes, and running flags — performs zero additional
commits; a pass over a page whose groups all have selections likewise
commits nothing. -/
theorem answerRadios_idempotent (page : List RadioEl) (choose1 choose2 : ℕ → ℕ)
    (clickOk2 flags2 : ℕ → Bool) :
    ((∀ i ∈ List.range page.length, groupAnswered page (gidAt page i) = true) →
      (answerRadios choose2 clickOk2 flags2 page).1 = [])
  ∧ ((answerRadios choose2 clickOk2 flags2 page).1.map
      (fun c => gidAt page c)).Nodup
  ∧ (answerRadios choose2 clickOk2 flags2
      (answerRadios choose1 (fun _ => true) (fun _ => true) page).2).1 = [] := by
  refine ⟨?_, ?_, ?_⟩
  · intro h
    unfold answerRadios
    rw [radiosLoop_no_commits choose2 clickOk2 flags2 _ _ _ h]
  · exact (radiosLoop_commit_gids choose2 clickOk2 flags2 (List.range page.length)
      [] page (fun i hi => List.mem_range.mp hi)).2
  · set page1 := (answerRadios choose1 (fun _ => true) (fun _ => true) page).2
      with hp1
    have hlen1 : page1.length = page.length := by
      rw [hp1]
      exact radiosLoop_length choose1 _ _ _ _ _
    have hgid1 : ∀ k, gidAt page1 k = gidAt page k := by
      intro k
      rw [hp1]
      exact radiosLoop_gid choose1 _ _ _ _ _ k
    have hall : ∀ i ∈ List.range page1.length,
        groupAnswered page1 (gidAt page1 i) = true := by
      intro i hi
      have hi' : i ∈ List.range page.length := by
        rw [List.mem_range] at hi ⊢
        omega
      have := (radiosLoop_answers_all choose1 (List.range page.length) [] page
        (fun x hx => List.mem_range.mp hx)
        (fun g hg => absurd hg (List.not_mem_nil g))).2 i hi'
      rw [hgid1 i]
      exact this
    unfold answerRadios
    rw [radiosLoop_no_commits choose2 clickOk2 flags2 _ _ _ hall]

/-- Witness for C9: a two-radio page forming one group that already has a
selection — the pass performs zero commits. -/
theorem answerRadios_idempotent_witness :
    (answerRadios (fun _ => 0) (fun _ => true) (fun _ => true)
      [{ gid := 1, selected := true }, { gid := 1, selected := false }]).1 = [] :=
  (answerRadios_idempotent
    [{ gid := 1, selected := true }, { gid := 1, selected := false }]
    (fun _ => 0) (fun _ => 0) (fun _ => true) (fun _ => true)).1 (by decide)

end LiteSurvey

